import Mathlib

/-!
# Verification of the `words` static-site generator (build script)

Shallow embedding of the transformation pipeline of the repository's build
script (the source file with `generateWaveformImage`, `generateVideoFromAudio`,
`generateSite`, `generateOpenGraphTags`, `generateAudioPlayer`, `writePost`,
`generateRSSFeed`).

Modelling conventions:
* External collaborators (per the spec they are out of scope) appear as inputs:
  the front-matter attributes of each source file, the markdown renderer's
  output (`rendered`), and the numeric result of `new Date(attributes.date)`
  (`dateMs`, with `none` standing for JavaScript's Invalid Date whose time
  value is NaN).
* Every external command invocation (`ffprobe`/`ffmpeg`) and fallible
  filesystem call is abstracted by an oracle recording whether that call
  succeeds, keyed by the audio path where the source derives the call's
  arguments from it.  The command strings themselves (codec flags, filter
  graphs, computed waveform dimensions) only feed those external invocations
  and are absorbed into the oracle.
* JavaScript value semantics are modelled explicitly: `Option String` for a
  value that can be `null`/`undefined`, `Option (Option String)` for an entry
  field that starts out `undefined` (`none`) and can later hold `null`
  (`some none`) or a string (`some (some s)`); string truthiness is
  "non-empty"; `JSON.stringify` omits keys whose value is `undefined` and
  keeps keys whose value is `null`.
* Host date formatting (`toISOString`, `toUTCString`, `toLocaleDateString`)
  is external; its exact text is abstracted by injective encodings of the
  millisecond value, except for the one behaviour the code depends on:
  `toISOString` throws `Invalid time value` on an Invalid Date.
* `String.prototype.replace(string, string)` replaces the first occurrence
  only; `replaceFirst` below reproduces that.
* Inter-element whitespace of the HTML template literals is elided; no claim
  depends on it.
-/

/-! ## Small JavaScript-semantics helpers -/

/-- JS string truthiness: a string is truthy iff it is non-empty. -/
def jsTruthy (s : String) : Bool := s ≠ ""

/-- `attributes[k] || null`: an absent or empty-string attribute becomes `null`. -/
def jsOrNull (o : Option String) : Option String :=
  match o with
  | some s => if s = "" then none else some s
  | none => none

/-- `x || fallback` on an optional string (`undefined` and `""` are falsy). -/
def jsOr (o : Option String) (fallback : String) : String :=
  match o with
  | some s => if s = "" then fallback else s
  | none => fallback

/-- Template-literal interpolation of a possibly-undefined string. -/
def jsShow (o : Option String) : String :=
  match o with
  | some s => s
  | none => "undefined"

/-- Suffix test on the character lists (structural-recursion variant of
`String.endsWith`, identical semantics on the Unicode scalar sequence). -/
def strEndsWith (s t : String) : Bool := List.isSuffixOf t.data s.data

/-- Prefix test, as above. -/
def strStartsWith (s t : String) : Bool := List.isPrefixOf t.data s.data

/-- Drop the last `n` characters (`String.dropRight`). -/
def strDropRight (s : String) (n : Nat) : String :=
  String.mk (s.data.take (s.data.length - n))

/-- Drop the first `n` characters (`String.drop`). -/
def strDrop (s : String) (n : Nat) : String := String.mk (s.data.drop n)

/-- ASCII lower-casing of one character (the audio extensions the regex
matches case-insensitively are ASCII). -/
def lowerCharA (c : Char) : Char :=
  if 65 ≤ c.toNat ∧ c.toNat ≤ 90 then Char.ofNat (c.toNat + 32) else c

/-- Lower-casing of a string, character-wise. -/
def strToLower (s : String) : String := String.mk (s.data.map lowerCharA)

/-- `path.basename(file, '.md')`: strips the extension only when it is a proper
suffix (Node keeps `'.md'` itself unchanged). -/
def mdStem (s : String) : String :=
  if strEndsWith s ".md" ∧ 3 < s.length then strDropRight s 3 else s

/-- `s.replace(/\.(mp3|wav|ogg|m4a)$/i, repl)`: case-insensitive audio
extension at the end of the string, replaced by `repl`; otherwise unchanged. -/
def replaceAudioExt (s repl : String) : String :=
  let low := strToLower s
  if strEndsWith low ".mp3" ∨ strEndsWith low ".wav"
      ∨ strEndsWith low ".ogg" ∨ strEndsWith low ".m4a" then
    strDropRight s 4 ++ repl
  else s

/-- `path.join(a, b)` for the shapes the script produces: a leading `./` on
the left part is normalised away and a leading `/` on the right part does not
double the separator. -/
def pathJoinModel (a b : String) : String :=
  let a' := if strStartsWith a "./" then strDrop a 2 else a
  let b' := if strStartsWith b "/" then strDrop b 1 else b
  a' ++ "/" ++ b'

/-- Split the list at the first occurrence of `pat`: the part before it and
the part after it. -/
def findSplit (pat : List Char) : List Char → Option (List Char × List Char)
  | [] => if pat.isEmpty then some ([], []) else none
  | c :: cs =>
    if List.isPrefixOf pat (c :: cs) then some ([], (c :: cs).drop pat.length)
    else
      match findSplit pat cs with
      | some (b, a) => some (c :: b, a)
      | none => none

/-- JS `String.prototype.replace(pattern, repl)` with a string pattern:
replaces the first occurrence only, and leaves the string unchanged when the
pattern does not occur. -/
def replaceFirst (s pat repl : String) : String :=
  match findSplit pat.data s.data with
  | some (b, a) => String.mk b ++ repl ++ String.mk a
  | none => s

/-- Position after the first `'>'` of the list, if any (the end of a
`/<[^>]*>/` match started just before the list). -/
def afterGt : List Char → Option (List Char)
  | [] => none
  | c :: cs => if c = '>' then some cs else afterGt cs

/-- One left-to-right pass of `replace(/<[^>]*>/g, '')`.  In copy mode
(`inTag = false`) a `<` starts a match only when a `>` occurs later (the
pattern needs a closing `>`); with no later `>` the `<` — and, since the rest
then holds no `>` at all, every later character — is copied verbatim.  In tag
mode the characters up to and including the first `>` are dropped. -/
def stripTagsAux : Bool → List Char → List Char
  | _, [] => []
  | true, c :: cs => if c = '>' then stripTagsAux false cs else stripTagsAux true cs
  | false, c :: cs =>
    if c = '<' ∧ (afterGt cs).isSome then stripTagsAux true cs
    else c :: stripTagsAux false cs

/-- `replace(/<[^>]*>/g, '')`: global removal of `<`…`>` runs. -/
def stripTags (cs : List Char) : List Char := stripTagsAux false cs

/-- `content.substring(0, 200).replace(/<[^>]*>/g, '')` — the description
fallback used by both the Open-Graph builder and the RSS feed: the first 200
characters of the rendered HTML, with tags then stripped from that prefix. -/
def truncStrip (content : String) : String :=
  String.mk (stripTags (content.toList.take 200))

/-! ## Site configuration (the `SITE_CONFIG` / path constants) -/

def SITE_TITLE : String := "Aubrey McCarthy - Words"
def SITE_DESCRIPTION : String := "A collection of thoughts about making, game development, and life."
def SITE_URL : String := "https://words.aubrey.page"
def SITE_AUTHOR : String := "Aubrey McCarthy"
def OUTPUT_DIR : String := "./docs"
def AUDIO_COVER_IMAGE : String := "./audio-cover.jpg"

/-! ## Data model -/

/-- One source file as the entry parser sees it: the name from `readdir`,
the front-matter attributes, the markdown renderer's output, and the numeric
value of `new Date(attributes.date)` (`none` = Invalid Date / NaN). -/
structure SourceFile where
  name : String
  title : Option String
  dateMs : Option Int
  description : Option String
  tags : Option (List String)
  musicSource : Option String
  coverImage : Option String
  rendered : String
deriving DecidableEq, Repr, Inhabited

/-- The normalized in-memory entry (one per markdown file).  `videoSource` and
`waveformImage` start out `undefined` (`none`); the media loop may later set
them to a string (`some (some s)`) or to `null` (`some none`). -/
structure Entry where
  title : Option String
  dateMs : Option Int
  description : Option String
  tags : List String
  slug : String
  filename : String
  musicSource : Option String
  coverImage : Option String
  content : String
  videoSource : Option (Option String) := none
  waveformImage : Option (Option String) := none
deriving DecidableEq, Repr, Inhabited

/-- The entry parser (the `markdownFiles.map` callback inside `generateSite`):
spread of the attributes plus rendered content, parsed date, defaulted tags,
slug from the filename stem, and `|| null` on the two media attributes. -/
def parseEntry (f : SourceFile) : Entry :=
  { title := f.title
    dateMs := f.dateMs
    description := f.description
    tags := f.tags.getD []
    slug := mdStem f.name
    filename := f.name
    musicSource := jsOrNull f.musicSource
    coverImage := jsOrNull f.coverImage
    content := f.rendered
    videoSource := none
    waveformImage := none }

/-- An entry is truthy-music-sourced (`entry.musicSource` truthy). -/
def musicTruthy (e : Entry) : Bool :=
  match e.musicSource with
  | some s => s ≠ ""
  | none => false

/-- The derived-media gate: `entry.musicSource && entry.tags.includes('music')`. -/
def mediaEligible (e : Entry) : Bool :=
  musicTruthy e && e.tags.contains "music"

/-! ## Waveform image generation (`generateWaveformImage`) -/

/-- Outcomes of the external calls made by `generateWaveformImage`, in source
order: `fs.mkdir`, the `ffprobe` dimension query (`some stdout` on success),
audio extraction, waveform render, composite, and the two `fs.unlink` calls. -/
structure WaveformOracle where
  mkdirOk : Bool
  probe : Option String
  extractOk : Bool
  waveformOk : Bool
  compositeOk : Bool
  unlinkWaveformOk : Bool
  unlinkAudioOk : Bool
deriving DecidableEq, Repr, Inhabited

/-- Return value of `generateWaveformImage`: the output path on success, or
the `false` sentinel produced by the surrounding `catch`. -/
inductive WaveformResult where
  | ok (path : String)
  | sentinel
deriving DecidableEq, Repr, Inhabited

/-- `generateWaveformImage(audioPath, outputImagePath, coverImage)`: every step
runs inside one `try`; the first failing call reaches the `catch`, which logs
and returns `false`.  When all calls succeed the temp files are removed and
the output path is returned.  The probed dimensions and the temp-file names
only feed the abstracted command strings. -/
def generateWaveformImage (audioPath outputImagePath coverImage : String)
    (o : WaveformOracle) : WaveformResult :=
  if ¬ o.mkdirOk then .sentinel
  else match o.probe with
    | none => .sentinel
    | some _dims =>
      if ¬ o.extractOk then .sentinel
      else if ¬ o.waveformOk then .sentinel
      else if ¬ o.compositeOk then .sentinel
      else if ¬ o.unlinkWaveformOk then .sentinel
      else if ¬ o.unlinkAudioOk then .sentinel
      else .ok outputImagePath

/-- All external calls of one `generateWaveformImage` invocation succeed. -/
def wfAllOk (o : WaveformOracle) : Bool :=
  o.mkdirOk && o.probe.isSome && o.extractOk && o.waveformOk && o.compositeOk
    && o.unlinkWaveformOk && o.unlinkAudioOk

/-- Truthiness of the value `generateWaveformImage` returned
(`generatedImagePath ? … : …` / `generatedImagePath || coverImage`). -/
def wfTruthy : WaveformResult → Bool
  | .ok p => p ≠ ""
  | .sentinel => false

/-! ## Video generation (`generateVideoFromAudio`) -/

/-- Outcomes of the external calls made by `generateVideoFromAudio`:
availability of `ffmpeg -version`, the two `fs.stat` mtimes (`none` = the stat
threw, file absent), `fs.mkdir`, the encode command, and the clock value the
filesystem would stamp on a newly written output. -/
structure VideoOracle where
  ffmpegOk : Bool
  audioMtime : Option Int
  videoMtime : Option Int
  mkdirOk : Bool
  encodeOk : Bool
  now : Int
deriving DecidableEq, Repr, Inhabited

/-- Observable result of one `generateVideoFromAudio` invocation: whether the
encode command was run, and the output file's mtime afterwards (`none` =
still absent). -/
structure VideoRun where
  encoderInvoked : Bool
  videoMtimeAfter : Option Int
deriving DecidableEq, Repr, Inhabited

/-- `generateVideoFromAudio(audioPath, outputVideoPath, coverImage)`:
check `ffmpeg -version` (failure reaches the `catch`: nothing happens); stat
both files in an inner `try` and skip when the existing output is strictly
newer than the audio (`videoStat.mtime > audioStat.mtime`); otherwise mkdir
and encode.  All failures are caught and logged; the function returns nothing
either way. -/
def generateVideoFromAudio (audioPath outputVideoPath coverImage : String)
    (o : VideoOracle) : VideoRun :=
  if ¬ o.ffmpegOk then { encoderInvoked := false, videoMtimeAfter := o.videoMtime }
  else
    let upToDate : Bool :=
      match o.audioMtime, o.videoMtime with
      | some a, some v => v > a
      | _, _ => false
    if upToDate then { encoderInvoked := false, videoMtimeAfter := o.videoMtime }
    else if ¬ o.mkdirOk then { encoderInvoked := false, videoMtimeAfter := o.videoMtime }
    else if o.encodeOk then { encoderInvoked := true, videoMtimeAfter := some o.now }
    else { encoderInvoked := true, videoMtimeAfter := o.videoMtime }

/-! ## The per-entry media loop of `generateSite` -/

/-- The body of the `for (const entry of entries)` loop: for eligible entries
compute the colocated artifact paths, run waveform generation, fall back to
the cover image for the video's still, run video generation, and then store
`entry.videoSource` unconditionally from the filename pattern while storing
`entry.waveformImage` only when waveform generation returned a truthy path
(else `null`). -/
def processEntry (wEnv : String → WaveformOracle) (vEnv : String → VideoOracle)
    (e : Entry) : Entry :=
  if mediaEligible e then
    let ms := e.musicSource.getD ""
    let audioPath := pathJoinModel OUTPUT_DIR ms
    let videoPath := replaceAudioExt audioPath ".mp4"
    let waveformImagePath := replaceAudioExt audioPath "-waveform.jpg"
    let coverImage :=
      match e.coverImage with
      | some c => pathJoinModel OUTPUT_DIR c
      | none => AUDIO_COVER_IMAGE
    let generatedImagePath :=
      generateWaveformImage audioPath waveformImagePath coverImage (wEnv audioPath)
    let videoSourceImage :=
      match generatedImagePath with
      | .ok p => if p = "" then coverImage else p
      | .sentinel => coverImage
    let _vrun := generateVideoFromAudio audioPath videoPath videoSourceImage (vEnv audioPath)
    { e with
      videoSource := some (some (replaceAudioExt ms ".mp4"))
      waveformImage :=
        if wfTruthy generatedImagePath then
          some (some (replaceAudioExt ms "-waveform.jpg"))
        else some none }
  else e

/-! ## Date sort (`entries.sort((a, b) => b.date - a.date)`) -/

/-- The comparator decides that `a` strictly precedes `b` when
`b.date - a.date < 0`.  An Invalid Date makes the subtraction NaN, which the
host sort treats as "no reordering" (NaN is neither `< 0` nor `> 0`). -/
def dateGtB (a b : Entry) : Bool :=
  match a.dateMs, b.dateMs with
  | some x, some y => x > y
  | _, _ => false

/-- `a.date ≥ b.date` on two entries with comparable (valid) dates. -/
def dateGeB (a b : Entry) : Bool :=
  match a.dateMs, b.dateMs with
  | some x, some y => decide (x ≥ y)
  | _, _ => false

/-- Stable insertion step of the descending date sort: `e` passes over every
element strictly newer than it and lands before the first element that is not,
so equal-dated elements keep their original relative order — the behaviour of
the host's stable `Array.prototype.sort` under this comparator. -/
def insertDesc (e : Entry) : List Entry → List Entry
  | [] => [e]
  | x :: xs => if dateGtB x e then x :: insertDesc e xs else e :: x :: xs

/-- Stable descending-by-date sort of the entry list. -/
def sortDesc : List Entry → List Entry
  | [] => []
  | x :: xs => insertDesc x (sortDesc xs)

theorem insertDesc_perm (e : Entry) (l : List Entry) :
    List.Perm (insertDesc e l) (e :: l) := by
  induction l with
  | nil => simp [insertDesc]
  | cons x xs ih =>
    simp only [insertDesc]
    by_cases h : dateGtB x e = true
    · simp only [h, if_true]
      exact List.Perm.trans (List.Perm.cons x ih) (List.Perm.swap e x xs)
    · simp [h]

theorem sortDesc_perm (l : List Entry) : List.Perm (sortDesc l) l := by
  induction l with
  | nil => simp [sortDesc]
  | cons x xs ih =>
    exact List.Perm.trans (insertDesc_perm x (sortDesc xs)) (List.Perm.cons x ih)

/-- A strict comparator outcome implies the non-strict one. -/
theorem dateGe_of_gt {a b : Entry} (h : dateGtB a b = true) : dateGeB a b = true := by
  unfold dateGtB at h
  unfold dateGeB
  cases ha : a.dateMs with
  | none => rw [ha] at h; simp at h
  | some x =>
    cases hb : b.dateMs with
    | none => rw [ha, hb] at h; simp at h
    | some y =>
      rw [ha, hb] at h
      simp only [decide_eq_true_eq] at h ⊢
      omega

/-- On valid dates, failure of the strict comparison one way yields the
non-strict comparison the other way. -/
theorem dateGe_of_not_gt {a b : Entry} (ha : a.dateMs.isSome = true)
    (hb : b.dateMs.isSome = true) (h : dateGtB b a = false) : dateGeB a b = true := by
  unfold dateGtB at h
  unfold dateGeB
  cases hha : a.dateMs with
  | none => rw [hha] at ha; simp at ha
  | some x =>
    cases hhb : b.dateMs with
    | none => rw [hhb] at hb; simp at hb
    | some y =>
      rw [hha, hhb] at h
      simp only [decide_eq_false_iff_not] at h
      simp only [decide_eq_true_eq]
      omega

theorem dateGe_trans {a b c : Entry} (h1 : dateGeB a b = true) (h2 : dateGeB b c = true) :
    dateGeB a c = true := by
  unfold dateGeB at h1 h2 ⊢
  cases hha : a.dateMs with
  | none => rw [hha] at h1; simp at h1
  | some x =>
    cases hhb : b.dateMs with
    | none => rw [hhb] at h1; simp [hha, hhb] at h1
    | some y =>
      cases hhc : c.dateMs with
      | none => rw [hhb, hhc] at h2; simp at h2
      | some z =>
        rw [hha, hhb] at h1
        rw [hhb, hhc] at h2
        simp only [decide_eq_true_eq] at h1 h2 ⊢
        omega

/-- On a valid date, the strict comparator is irreflexive. -/
theorem dateGt_irrefl (a : Entry) : dateGtB a a = false := by
  unfold dateGtB
  cases h : a.dateMs with
  | none => simp
  | some x => simp

theorem mem_insertDesc {a e : Entry} {l : List Entry} (h : a ∈ insertDesc e l) :
    a = e ∨ a ∈ l := by
  have := (insertDesc_perm e l).mem_iff.mp h
  simpa using this

theorem mem_sortDesc {a : Entry} {l : List Entry} (h : a ∈ sortDesc l) : a ∈ l :=
  (sortDesc_perm l).mem_iff.mp h

/-- Inserting into a descending-sorted list of valid-dated entries keeps it
descending-sorted. -/
theorem insertDesc_pairwise {e : Entry} {l : List Entry}
    (hl : l.Pairwise (fun a b => dateGeB a b = true))
    (hv : ∀ x ∈ l, x.dateMs.isSome = true) (he : e.dateMs.isSome = true) :
    (insertDesc e l).Pairwise (fun a b => dateGeB a b = true) := by
  induction l with
  | nil => simp [insertDesc]
  | cons x xs ih =>
    simp only [insertDesc]
    by_cases hcmp : dateGtB x e = true
    · rw [if_pos hcmp]
      rw [List.pairwise_cons] at hl
      refine List.Pairwise.cons ?_ (ih hl.2 (fun y hy => hv y (List.mem_cons_of_mem x hy)))
      intro y hy
      rcases mem_insertDesc hy with rfl | hmem
      · exact dateGe_of_gt hcmp
      · exact hl.1 y hmem
    · rw [if_neg hcmp]
      have hxv : x.dateMs.isSome = true := hv x (List.mem_cons_self x xs)
      have hex : dateGeB e x = true :=
        dateGe_of_not_gt he hxv (Bool.eq_false_iff.mpr hcmp)
      refine List.Pairwise.cons ?_ hl
      intro y hy
      rcases List.mem_cons.mp hy with rfl | hmem
      · exact hex
      · rw [List.pairwise_cons] at hl
        exact dateGe_trans hex (hl.1 y hmem)

/-- The date sort of a valid-dated entry list is descending-sorted. -/
theorem sortDesc_pairwise {l : List Entry} (hv : ∀ x ∈ l, x.dateMs.isSome = true) :
    (sortDesc l).Pairwise (fun a b => dateGeB a b = true) := by
  induction l with
  | nil => simp [sortDesc]
  | cons x xs ih =>
    simp only [sortDesc]
    have hxs : ∀ y ∈ xs, y.dateMs.isSome = true :=
      fun y hy => hv y (List.mem_cons_of_mem x hy)
    exact insertDesc_pairwise (ih hxs)
      (fun y hy => hxs y (mem_sortDesc hy)) (hv x (List.mem_cons_self x xs))

/-- Positional form of sortedness, with default-padded indexing. -/
theorem sortDesc_getD_ge {l : List Entry} (hv : ∀ x ∈ l, x.dateMs.isSome = true)
    {i j : Nat} (hij : i < j) (hj : j < (sortDesc l).length) :
    dateGeB ((sortDesc l).getD i default) ((sortDesc l).getD j default) = true := by
  have hi : i < (sortDesc l).length := Nat.lt_trans hij hj
  rw [List.getD_eq_getElem _ _ hi, List.getD_eq_getElem _ _ hj]
  exact List.pairwise_iff_getElem.mp (sortDesc_pairwise hv) i j hi hj hij

/-! ## Host date formatting (external, abstracted injectively) -/

/-- `Date.prototype.toISOString` on a valid date: abstract injective encoding
of the millisecond value (the exact ISO-8601 text is host behaviour no claim
inspects).  On an Invalid Date the host method throws instead — that case is
handled by `mkManifestRecord`. -/
def isoOfMs (ms : Int) : String := "ISO:" ++ toString ms

/-- `Date.prototype.toUTCString`: abstract injective encoding; an Invalid Date
formats as the string Invalid Date without throwing. -/
def utcOfMs (d : Option Int) : String :=
  match d with
  | some ms => "UTC:" ++ toString ms
  | none => "Invalid Date"

/-- `toLocaleDateString('en-US', …)`: abstract injective encoding; an Invalid
Date formats as the string Invalid Date without throwing. -/
def localeDate (d : Option Int) : String :=
  match d with
  | some ms => "en-US:" ++ toString ms
  | none => "Invalid Date"

/-! ## Open-Graph builder (`generateOpenGraphTags`) -/

/-- One emitted social-preview tag (the distinction between the
`property`/`name` meta attributes is not claim-relevant). -/
structure OgTag where
  property : String
  content : String
deriving DecidableEq, Repr, Inhabited

/-- The description fallback of the Open-Graph builder:
`entry.description || entry.content.substring(0, 200).replace(/<[^>]*>/g, '')`
(no ellipsis here, unlike the RSS variant). -/
def ogDescription (e : Entry) : String := jsOr e.description (truncStrip e.content)

/-- `generateOpenGraphTags(entry)` as the ordered list of tags the source
concatenates: the always-emitted base block; then, for a music post
(`entry.tags.includes('music') && entry.musicSource`), the waveform-image
block when `entry.waveformImage` is truthy and the video/audio block when
`entry.videoSource` is truthy; any non-music post gets `og:type article`. -/
def generateOpenGraphTags (e : Entry) : List OgTag :=
  let postUrl := SITE_URL ++ "/posts/" ++ e.slug
  let description := ogDescription e
  let isMusicPost := e.tags.contains "music" && musicTruthy e
  let base : List OgTag :=
    [⟨"og:title", jsShow e.title⟩,
     ⟨"og:description", description⟩,
     ⟨"og:url", postUrl⟩,
     ⟨"og:site_name", SITE_TITLE⟩,
     ⟨"twitter:card", "summary_large_image"⟩,
     ⟨"twitter:title", jsShow e.title⟩,
     ⟨"twitter:description", description⟩]
  if isMusicPost then
    let imgTags : List OgTag :=
      match e.waveformImage with
      | some (some w) =>
        if w = "" then []
        else
          [⟨"og:image", SITE_URL ++ w⟩,
           ⟨"og:image:width", "1200"⟩,
           ⟨"og:image:height", "1200"⟩,
           ⟨"twitter:image", SITE_URL ++ w⟩]
      | _ => []
    let videoTags : List OgTag :=
      match e.videoSource with
      | some (some v) =>
        if v = "" then []
        else
          let videoUrl := SITE_URL ++ v
          let audioUrl := SITE_URL ++ jsShow e.musicSource
          [⟨"og:type", "video.other"⟩,
           ⟨"og:video", videoUrl⟩,
           ⟨"og:video:secure_url", videoUrl⟩,
           ⟨"og:video:type", "video/mp4"⟩,
           ⟨"og:audio", audioUrl⟩,
           ⟨"og:audio:type", "audio/mpeg"⟩,
           ⟨"music:musician", SITE_AUTHOR⟩,
           ⟨"twitter:player", videoUrl⟩]
      | _ => []
    base ++ imgTags ++ videoTags
  else base ++ [⟨"og:type", "article"⟩]

/-- The `og:type` tags among an entry's Open-Graph block. -/
def ogTypes (e : Entry) : List OgTag :=
  (generateOpenGraphTags e).filter (fun t => t.property == "og:type")

/-- The `og:video` tags among an entry's Open-Graph block. -/
def ogVideos (e : Entry) : List OgTag :=
  (generateOpenGraphTags e).filter (fun t => t.property == "og:video")

/-- The `og:audio` tags among an entry's Open-Graph block. -/
def ogAudios (e : Entry) : List OgTag :=
  (generateOpenGraphTags e).filter (fun t => t.property == "og:audio")

/-! ## Audio player and page rendering -/

/-- The body of the audio-player fragment for a truthy `musicSource`. -/
def audioPlayerHtml (src : String) : String :=
  "<div class=\"audio-player\"><audio controls preload=\"metadata\"><source src=\"" ++ src
    ++ "\" type=\"audio/mpeg\">Your browser does not support the audio element.</audio></div>"

/-- `generateAudioPlayer(entry)`: empty string unless `entry.musicSource` is
truthy — the gate does not look at the tags. -/
def generateAudioPlayer (e : Entry) : String :=
  match e.musicSource with
  | some s => if s = "" then "" else audioPlayerHtml s
  | none => ""

/-- The tag-badges fragment (`tagsHTML`). -/
def tagsHTML (e : Entry) : String :=
  if e.tags.length > 0 then
    "<div class=\"portfolio-tags\">"
      ++ String.intercalate " " (e.tags.map (fun tag =>
          "<span class=\"tag\" data-tag=\"" ++ tag ++ "\">" ++ tag ++ "</span>"))
      ++ "</div>"
  else ""

/-- Home-page card up to (and excluding) the audio player: wrapper with
`data-tags`, date, permalinked title, tag badges. -/
def homeCardHead (e : Entry) : String :=
  "<div class=\"portfolio-item\" data-tags=\"" ++ String.intercalate " " e.tags
    ++ "\"><div class=\"portfolio-header\"><div class=\"portfolio-date\">"
    ++ localeDate e.dateMs
    ++ "</div><header class=\"portfolio-title\"><a href=\"/posts/" ++ e.slug ++ "\">"
    ++ jsShow e.title ++ "</a></header>" ++ tagsHTML e ++ "</div>"

/-- Shared card ending: the content body and closing wrapper. -/
def cardContentTail (e : Entry) : String :=
  "<div class=\"portfolio-content\">" ++ e.content ++ "</div></div>"

/-- One home-page portfolio item (the `portfolioItems` map callback). -/
def renderHomeCard (e : Entry) : String :=
  homeCardHead e ++ generateAudioPlayer e ++ cardContentTail e

/-- Per-post card head: same shape without the permalink wrapper and without
the `data-tags` attribute. -/
def postCardHead (e : Entry) : String :=
  "<div class=\"portfolio-item\"><div class=\"portfolio-header\"><div class=\"portfolio-date\">"
    ++ localeDate e.dateMs ++ "</div><header class=\"portfolio-title\">" ++ jsShow e.title
    ++ "</header>" ++ tagsHTML e ++ "</div>"

/-- The per-post card (`post` inside `writePost`). -/
def renderPostCard (e : Entry) : String :=
  postCardHead e ++ generateAudioPlayer e ++ cardContentTail e

/-- Rendering of the Open-Graph block into the post page's head. -/
def ogTagsHtml (e : Entry) : String :=
  String.intercalate "\n" ((generateOpenGraphTags e).map (fun t =>
    "<meta property=\"" ++ t.property ++ "\" content=\"" ++ t.content ++ "\" />"))

/-- `writePost(entry, postTemplate, tagsHTML)`: first-occurrence substitution
of the three markers, written to `posts/slug.html`; returned here as the
(filename, contents) pair. -/
def writePost (postTemplate : String) (e : Entry) : String × String :=
  (e.slug ++ ".html",
   replaceFirst
     (replaceFirst
       (replaceFirst postTemplate "<!-- BLOG_ITEM -->" (renderPostCard e))
       "<!-- BLOG_TITLE -->" (jsShow e.title))
     "<!-- OG_TAGS -->" (ogTagsHtml e))

/-! ## RSS feed (`generateRSSFeed`) -/

/-- One feed item, field by field as the source's template literal emits it
(`enclosure`/`itunes` hold the raw fragment, empty when not emitted). -/
structure RssItem where
  title : String
  description : String
  contentEncoded : String
  link : String
  guid : String
  pubDate : String
  enclosure : String
  itunes : String
deriving DecidableEq, Repr, Inhabited

/-- The feed-description fallback:
`entry.description || entry.content.substring(0, 200).replace(/<[^>]*>/g, '') + '...'`. -/
def rssDescription (e : Entry) : String :=
  jsOr e.description (truncStrip e.content ++ "...")

/-- One `<item>` of the feed. -/
def mkRssItem (e : Entry) : RssItem :=
  let postUrl := SITE_URL ++ "/posts/" ++ e.slug
  { title := jsShow e.title
    description := rssDescription e
    contentEncoded := e.content
    link := postUrl
    guid := postUrl
    pubDate := utcOfMs e.dateMs
    enclosure :=
      match e.musicSource with
      | some s =>
        if s = "" then ""
        else "<enclosure url=\"" ++ SITE_URL ++ s ++ "\" type=\"audio/mpeg\" />"
      | none => ""
    itunes :=
      match e.musicSource with
      | some s =>
        if s = "" then ""
        else "<itunes:duration></itunes:duration><itunes:author>" ++ SITE_AUTHOR
          ++ "</itunes:author>"
      | none => "" }

/-- Serialisation of one feed item. -/
def renderRssItem (i : RssItem) : String :=
  "<item><title><![CDATA[" ++ i.title ++ "]]></title><description><![CDATA["
    ++ i.description ++ "]]></description><content:encoded><![CDATA[" ++ i.contentEncoded
    ++ "]]></content:encoded><link>" ++ i.link ++ "</link><guid isPermaLink=\"true\">"
    ++ i.guid ++ "</guid><pubDate>" ++ i.pubDate ++ "</pubDate>" ++ i.enclosure
    ++ i.itunes ++ "</item>"

/-- The channel header (site config plus `lastBuildDate` from the build
clock, which is an input). -/
def rssHeader (now : String) : String :=
  "<?xml version=\"1.0\" encoding=\"UTF-8\"?><rss version=\"2.0\" xmlns:content=\"http://purl.org/rss/1.0/modules/content/\" xmlns:itunes=\"http://www.itunes.com/dtds/podcast-1.0.dtd\"><channel><title>"
    ++ SITE_TITLE ++ "</title><description>" ++ SITE_DESCRIPTION ++ "</description><link>"
    ++ SITE_URL ++ "</link><lastBuildDate>" ++ now
    ++ "</lastBuildDate><generator>Custom Static Site Generator</generator><language>en-US</language><itunes:author>"
    ++ SITE_AUTHOR ++ "</itunes:author><itunes:summary>" ++ SITE_DESCRIPTION ++ "</itunes:summary>"

/-- `generateRSSFeed(entries)`: the latest 20 posts (`entries.slice(0, 20)` of
the already-sorted list) rendered into the channel; returns the item list and
the serialised document. -/
def generateRSSFeed (now : String) (entries : List Entry) : List RssItem × String :=
  let items := (entries.take 20).map mkRssItem
  (items, rssHeader now ++ String.intercalate "\n" (items.map renderRssItem) ++ "</channel></rss>")

/-! ## Manifest (`posts.json`) -/

/-- One manifest record before JSON serialisation.  `title` can be
`undefined` (absent attribute), `musicSource` can be `null`, and the two
derived-media fields can be `undefined`, `null`, or a string. -/
structure ManifestRecord where
  title : Option String
  date : String
  tags : List String
  slug : String
  description : String
  musicSource : Option String
  videoSource : Option (Option String)
  waveformImage : Option (Option String)
deriving DecidableEq, Repr, Inhabited

/-- The `postsMetadata` map callback.  `entry.date.toISOString()` throws
`Invalid time value` on an Invalid Date, modelled as the error case. -/
def mkManifestRecord (e : Entry) : Except String ManifestRecord :=
  match e.dateMs with
  | none => .error "Invalid time value"
  | some ms =>
    .ok { title := e.title
          date := isoOfMs ms
          tags := e.tags
          slug := e.slug
          description := jsOr e.description ""
          musicSource := e.musicSource
          videoSource := e.videoSource
          waveformImage := e.waveformImage }

/-- The keys present on the record after `JSON.stringify`: keys whose value is
`undefined` are omitted; `null`-valued keys are kept. -/
def recordKeys (r : ManifestRecord) : List String :=
  (match r.title with | some _ => ["title"] | none => [])
    ++ ["date", "tags", "slug", "description", "musicSource"]
    ++ (match r.videoSource with | some _ => ["videoSource"] | none => [])
    ++ (match r.waveformImage with | some _ => ["waveformImage"] | none => [])

/-- A JS `Array.prototype.map` whose callback can throw: the first throwing
element aborts the whole map with that error. -/
def mapExcept (f : α → Except ε β) : List α → Except ε (List β)
  | [] => .ok []
  | a :: as =>
    match f a with
    | .error err => .error err
    | .ok b =>
      match mapExcept f as with
      | .error err => .error err
      | .ok bs => .ok (b :: bs)

/-! ## Tag aggregation and the home page -/

/-- `[...new Set(entries.flatMap(e => e.tags))].sort()`: first-occurrence
deduplication, then the default lexicographic string sort. -/
def insertStr (s : String) : List String → List String
  | [] => [s]
  | x :: xs => if x < s then x :: insertStr s xs else s :: x :: xs

def sortStrs : List String → List String
  | [] => []
  | x :: xs => insertStr x (sortStrs xs)

def allTagsOf (entries : List Entry) : List String :=
  sortStrs ((entries.flatMap (·.tags)).eraseDups)

/-- The `tagFilterHTML` fragment. -/
def tagFilterHTML (allTags : List String) : String :=
  if allTags.length > 0 then
    "<div class=\"tag-filters\"><button class=\"tag-filter active\" data-filter=\"all\">All</button>"
      ++ String.intercalate " " (allTags.map (fun tag =>
          "<button class=\"tag-filter\" data-filter=\"" ++ tag ++ "\">" ++ tag ++ "</button>"))
      ++ "</div>"
  else ""

/-! ## Site assembly (`generateSite`) -/

/-- Everything `generateSite` consumes: the content directory listing (with
the externally produced attribute/render/date values), the two templates, the
per-audio-path media oracles, and the build clock. -/
structure SiteInput where
  files : List SourceFile
  template : String
  postTemplate : String
  wEnv : String → WaveformOracle
  vEnv : String → VideoOracle
  now : String

/-- Everything `generateSite` writes.  `sortedEntries` is the in-memory entry
list after the media loop and the date sort; the rendered collections below
are index-aligned maps of it (posts are written once per entry, in this
order). -/
structure SiteOutput where
  sortedEntries : List Entry
  manifest : List ManifestRecord
  homeCards : List String
  indexHtml : String
  postPages : List (String × String)
  rssItems : List RssItem
  rssXml : String
deriving DecidableEq, Repr, Inhabited

/-- `files.filter(file => file.endsWith('.md'))`. -/
def mdFilesOf (i : SiteInput) : List SourceFile :=
  i.files.filter (fun f => strEndsWith f.name ".md")

/-- Parsed entries after the sequential derived-media loop (each entry is
processed independently). -/
def entriesOf (i : SiteInput) : List Entry :=
  (mdFilesOf i).map (fun f => processEntry i.wEnv i.vEnv (parseEntry f))

/-- The entry list in rendering order (date-descending sort). -/
def sortedOf (i : SiteInput) : List Entry := sortDesc (entriesOf i)

/-- `generateSite()`: parse → media loop → sort → manifest (whose date
serialisation can throw, aborting the run before anything is written) → home
page and per-post pages → RSS feed. -/
def generateSite (i : SiteInput) : Except String SiteOutput :=
  match mapExcept mkManifestRecord (sortedOf i) with
  | .error err => .error err
  | .ok manifest =>
    .ok { sortedEntries := sortedOf i
          manifest := manifest
          homeCards := (sortedOf i).map renderHomeCard
          indexHtml :=
            replaceFirst
              (replaceFirst i.template "<!-- PORTFOLIO_ITEMS -->"
                (String.intercalate "\n" ((sortedOf i).map renderHomeCard)))
              "<!-- TAG_FILTERS -->" (tagFilterHTML (allTagsOf (sortedOf i)))
          postPages := (sortedOf i).map (writePost i.postTemplate)
          rssItems := (generateRSSFeed i.now (sortedOf i)).1
          rssXml := (generateRSSFeed i.now (sortedOf i)).2 }

/-! ## Structural lemmas about the pipeline -/

theorem mkManifestRecord_ok_fields {e : Entry} {r : ManifestRecord}
    (h : mkManifestRecord e = .ok r) :
    r.slug = e.slug ∧ r.tags = e.tags ∧ r.musicSource = e.musicSource
      ∧ r.videoSource = e.videoSource ∧ r.waveformImage = e.waveformImage
      ∧ r.title = e.title := by
  unfold mkManifestRecord at h
  cases hd : e.dateMs with
  | none => rw [hd] at h; exact absurd h (by simp)
  | some ms =>
    rw [hd] at h
    simp only [Except.ok.injEq] at h
    subst h
    exact ⟨rfl, rfl, rfl, rfl, rfl, rfl⟩

theorem mkManifestRecord_error_of_none {e : Entry} (h : e.dateMs = none) :
    mkManifestRecord e = .error "Invalid time value" := by
  unfold mkManifestRecord
  rw [h]

theorem mkManifestRecord_isOk_of_some {e : Entry} (h : e.dateMs.isSome = true) :
    ∃ r, mkManifestRecord e = .ok r := by
  unfold mkManifestRecord
  cases hd : e.dateMs with
  | none => rw [hd] at h; simp at h
  | some ms => exact ⟨_, rfl⟩

theorem mapExcept_ok_length {α β ε : Type} {f : α → Except ε β} :
    ∀ {l : List α} {m : List β}, mapExcept f l = .ok m → m.length = l.length := by
  intro l
  induction l with
  | nil => intro m h; simp only [mapExcept, Except.ok.injEq] at h; subst h; rfl
  | cons a as ih =>
    intro m h
    simp only [mapExcept] at h
    cases hfa : f a with
    | error err => rw [hfa] at h; exact absurd h (by simp)
    | ok b =>
      rw [hfa] at h
      cases hrest : mapExcept f as with
      | error err => rw [hrest] at h; exact absurd h (by simp)
      | ok bs =>
        rw [hrest] at h
        simp only [Except.ok.injEq] at h
        subst h
        simp only [List.length_cons, ih hrest]

theorem mapExcept_ok_mem {α β ε : Type} {f : α → Except ε β} :
    ∀ {l : List α} {m : List β}, mapExcept f l = .ok m →
      ∀ b ∈ m, ∃ a ∈ l, f a = .ok b := by
  intro l
  induction l with
  | nil =>
    intro m h b hb
    simp only [mapExcept, Except.ok.injEq] at h
    subst h
    simp at hb
  | cons a as ih =>
    intro m h b hb
    simp only [mapExcept] at h
    cases hfa : f a with
    | error err => rw [hfa] at h; exact absurd h (by simp)
    | ok b0 =>
      rw [hfa] at h
      cases hrest : mapExcept f as with
      | error err => rw [hrest] at h; exact absurd h (by simp)
      | ok bs =>
        rw [hrest] at h
        simp only [Except.ok.injEq] at h
        subst h
        rcases List.mem_cons.mp hb with rfl | hmem
        · exact ⟨a, List.mem_cons_self a as, hfa⟩
        · obtain ⟨a', ha', hfa'⟩ := ih hrest b hmem
          exact ⟨a', List.mem_cons_of_mem a ha', hfa'⟩

/-- A successful manifest map certifies every entry's date was valid. -/
theorem mapExcept_ok_valid :
    ∀ {l : List Entry} {m : List ManifestRecord},
      mapExcept mkManifestRecord l = .ok m → ∀ e ∈ l, e.dateMs.isSome = true := by
  intro l
  induction l with
  | nil => intro m _ e he; simp at he
  | cons a as ih =>
    intro m h e he
    simp only [mapExcept] at h
    cases hfa : mkManifestRecord a with
    | error err => rw [hfa] at h; exact absurd h (by simp)
    | ok b =>
      rw [hfa] at h
      cases hrest : mapExcept mkManifestRecord as with
      | error err => rw [hrest] at h; exact absurd h (by simp)
      | ok bs =>
        rcases List.mem_cons.mp he with rfl | hmem
        · cases hd : e.dateMs with
          | none => rw [mkManifestRecord_error_of_none hd] at hfa; exact absurd hfa (by simp)
          | some ms => simp
        · exact ih hrest e hmem

theorem mapExcept_isOk_of_valid :
    ∀ {l : List Entry}, (∀ e ∈ l, e.dateMs.isSome = true) →
      ∃ m, mapExcept mkManifestRecord l = .ok m := by
  intro l
  induction l with
  | nil => intro _; exact ⟨[], rfl⟩
  | cons a as ih =>
    intro hv
    obtain ⟨r, hr⟩ := mkManifestRecord_isOk_of_some (hv a (List.mem_cons_self a as))
    obtain ⟨m, hm⟩ := ih (fun e he => hv e (List.mem_cons_of_mem a he))
    exact ⟨r :: m, by simp only [mapExcept, hr, hm]⟩

/-- Any entry with an Invalid Date aborts the manifest map with the
`toISOString` error. -/
theorem mapExcept_error_of_invalid :
    ∀ {l : List Entry}, (∃ e ∈ l, e.dateMs = none) →
      mapExcept mkManifestRecord l = .error "Invalid time value" := by
  intro l
  induction l with
  | nil => intro h; obtain ⟨e, he, _⟩ := h; simp at he
  | cons a as ih =>
    intro h
    obtain ⟨e, he, hd⟩ := h
    rcases List.mem_cons.mp he with rfl | hmem
    · simp only [mapExcept, mkManifestRecord_error_of_none hd]
    · simp only [mapExcept]
      cases hfa : mkManifestRecord a with
      | error err =>
        unfold mkManifestRecord at hfa
        cases hda : a.dateMs with
        | none => rw [hda] at hfa; simp only [Except.error.injEq] at hfa; rw [← hfa]
        | some ms => rw [hda] at hfa; exact absurd hfa (by simp)
      | ok b => rw [ih ⟨e, hmem, hd⟩]

theorem mapExcept_ok_slugs :
    ∀ {l : List Entry} {m : List ManifestRecord},
      mapExcept mkManifestRecord l = .ok m → m.map (·.slug) = l.map (·.slug) := by
  intro l
  induction l with
  | nil => intro m h; simp only [mapExcept, Except.ok.injEq] at h; subst h; rfl
  | cons a as ih =>
    intro m h
    simp only [mapExcept] at h
    cases hfa : mkManifestRecord a with
    | error err => rw [hfa] at h; exact absurd h (by simp)
    | ok b =>
      rw [hfa] at h
      cases hrest : mapExcept mkManifestRecord as with
      | error err => rw [hrest] at h; exact absurd h (by simp)
      | ok bs =>
        rw [hrest] at h
        simp only [Except.ok.injEq] at h
        subst h
        simp only [List.map_cons, ih hrest, (mkManifestRecord_ok_fields hfa).1]

/-- The media loop changes only the two derived-media fields. -/
theorem processEntry_fields (wEnv : String → WaveformOracle) (vEnv : String → VideoOracle)
    (e : Entry) :
    (processEntry wEnv vEnv e).slug = e.slug
      ∧ (processEntry wEnv vEnv e).dateMs = e.dateMs
      ∧ (processEntry wEnv vEnv e).musicSource = e.musicSource
      ∧ (processEntry wEnv vEnv e).tags = e.tags
      ∧ (processEntry wEnv vEnv e).description = e.description
      ∧ (processEntry wEnv vEnv e).content = e.content
      ∧ (processEntry wEnv vEnv e).title = e.title := by
  unfold processEntry
  by_cases hc : mediaEligible e = true
  · simp [hc]
  · simp [hc]

/-- Field values of a processed entry on the eligible path. -/
theorem processEntry_eligible (wEnv : String → WaveformOracle) (vEnv : String → VideoOracle)
    {e : Entry} (helig : mediaEligible e = true) :
    (processEntry wEnv vEnv e).videoSource
        = some (some (replaceAudioExt (e.musicSource.getD "") ".mp4"))
      ∧ ((processEntry wEnv vEnv e).waveformImage
            = some (some (replaceAudioExt (e.musicSource.getD "") "-waveform.jpg"))
          ∨ (processEntry wEnv vEnv e).waveformImage = some none) := by
  unfold processEntry
  rw [if_pos helig]
  refine ⟨rfl, ?_⟩
  by_cases hw : wfTruthy (generateWaveformImage
      (pathJoinModel OUTPUT_DIR (e.musicSource.getD ""))
      (replaceAudioExt (pathJoinModel OUTPUT_DIR (e.musicSource.getD "")) "-waveform.jpg")
      (match e.coverImage with
       | some c => pathJoinModel OUTPUT_DIR c
       | none => AUDIO_COVER_IMAGE)
      (wEnv (pathJoinModel OUTPUT_DIR (e.musicSource.getD "")))) = true
  · left; simp only [hw, if_true]
  · right
    simp only [Bool.not_eq_true] at hw
    simp only [hw, Bool.false_eq_true, if_false]

/-- The media loop does not touch an ineligible entry. -/
theorem processEntry_ineligible (wEnv : String → WaveformOracle) (vEnv : String → VideoOracle)
    {e : Entry} (h : mediaEligible e = false) :
    processEntry wEnv vEnv e = e := by
  unfold processEntry
  rw [if_neg]
  rw [h]
  exact Bool.false_ne_true

/-- Inverting a successful run: each written collection is the corresponding
map of the sorted entry list. -/
theorem generateSite_ok_inv {i : SiteInput} {out : SiteOutput} (h : generateSite i = .ok out) :
    mapExcept mkManifestRecord (sortedOf i) = .ok out.manifest
      ∧ out.sortedEntries = sortedOf i
      ∧ out.homeCards = (sortedOf i).map renderHomeCard
      ∧ out.postPages = (sortedOf i).map (writePost i.postTemplate)
      ∧ out.rssItems = ((sortedOf i).take 20).map mkRssItem := by
  unfold generateSite at h
  cases hm : mapExcept mkManifestRecord (sortedOf i) with
  | error err => rw [hm] at h; exact absurd h (by simp)
  | ok m =>
    rw [hm] at h
    simp only [Except.ok.injEq] at h
    subst h
    exact ⟨rfl, rfl, rfl, rfl, by simp [generateRSSFeed]⟩

/-- A valid-dated input produces a successful run. -/
theorem generateSite_isOk_of_valid {i : SiteInput}
    (hv : ∀ e ∈ sortedOf i, e.dateMs.isSome = true) :
    (generateSite i).isOk = true := by
  obtain ⟨m, hm⟩ := mapExcept_isOk_of_valid hv
  unfold generateSite
  rw [hm]
  rfl

theorem entriesOf_mem {i : SiteInput} {e : Entry} (he : e ∈ entriesOf i) :
    ∃ f ∈ mdFilesOf i, e = processEntry i.wEnv i.vEnv (parseEntry f) := by
  unfold entriesOf at he
  obtain ⟨f, hf, hfe⟩ := List.mem_map.mp he
  exact ⟨f, hf, hfe.symm⟩

theorem jsOrNull_ne_some_empty (o : Option String) : jsOrNull o ≠ some "" := by
  unfold jsOrNull
  cases o with
  | none => simp
  | some s =>
    by_cases h : s = ""
    · simp [h]
    · simp [h]

/-- Truthiness of `musicSource` coincides with presence for entries produced
by the parser (which never yields an empty-string `musicSource`). -/
theorem musicTruthy_eq_isSome {e : Entry} (h : e.musicSource ≠ some "") :
    musicTruthy e = e.musicSource.isSome := by
  unfold musicTruthy
  cases hms : e.musicSource with
  | none => rfl
  | some s =>
    rw [hms] at h
    simp only [Option.isSome_some]
    simp only [ne_eq, Option.some.injEq] at h
    simp [h]

theorem mediaEligible_processEntry (wEnv : String → WaveformOracle)
    (vEnv : String → VideoOracle) (e : Entry) :
    mediaEligible (processEntry wEnv vEnv e) = mediaEligible e := by
  unfold mediaEligible musicTruthy
  rw [(processEntry_fields wEnv vEnv e).2.2.1, (processEntry_fields wEnv vEnv e).2.2.2.1]

/-- Pipeline invariant: `musicSource` is never the empty string. -/
theorem entriesOf_musicSource_ne_empty {i : SiteInput} {e : Entry} (he : e ∈ entriesOf i) :
    e.musicSource ≠ some "" := by
  obtain ⟨f, _, rfl⟩ := entriesOf_mem he
  rw [(processEntry_fields i.wEnv i.vEnv (parseEntry f)).2.2.1]
  exact jsOrNull_ne_some_empty f.musicSource

/-- Pipeline invariant: the derived-media fields of a pipeline entry are set
(string for `videoSource`, string-or-null for `waveformImage`) exactly on the
eligible entries and remain `undefined` on the rest. -/
theorem entriesOf_media {i : SiteInput} {e : Entry} (he : e ∈ entriesOf i) :
    (mediaEligible e = true →
        e.videoSource = some (some (replaceAudioExt (e.musicSource.getD "") ".mp4"))
          ∧ (e.waveformImage
                = some (some (replaceAudioExt (e.musicSource.getD "") "-waveform.jpg"))
              ∨ e.waveformImage = some none))
      ∧ (mediaEligible e = false → e.videoSource = none ∧ e.waveformImage = none) := by
  obtain ⟨f, _, rfl⟩ := entriesOf_mem he
  constructor
  · intro helig
    rw [mediaEligible_processEntry] at helig
    have hfields := processEntry_fields i.wEnv i.vEnv (parseEntry f)
    rw [hfields.2.2.1]
    exact processEntry_eligible i.wEnv i.vEnv helig
  · intro helig
    rw [mediaEligible_processEntry] at helig
    rw [processEntry_ineligible i.wEnv i.vEnv helig]
    exact ⟨rfl, rfl⟩

theorem sortedOf_mem {i : SiteInput} {e : Entry} (he : e ∈ sortedOf i) : e ∈ entriesOf i :=
  mem_sortDesc he

/-- Slugs survive the pipeline: entry slugs are exactly the filename stems. -/
theorem entriesOf_slugs (i : SiteInput) :
    (entriesOf i).map (·.slug) = (mdFilesOf i).map (fun f => mdStem f.name) := by
  unfold entriesOf
  rw [List.map_map]
  apply List.map_congr_left
  intro f _
  show (processEntry i.wEnv i.vEnv (parseEntry f)).slug = mdStem f.name
  rw [(processEntry_fields i.wEnv i.vEnv (parseEntry f)).1]
  rfl

/-! ## Waveform result characterisation -/

theorem generateWaveformImage_shape (a p c : String) (o : WaveformOracle) :
    generateWaveformImage a p c o = .ok p ∨ generateWaveformImage a p c o = .sentinel := by
  unfold generateWaveformImage
  cases hpr : o.probe with
  | none => split_ifs <;> simp
  | some d => split_ifs <;> simp

theorem generateWaveformImage_ok_iff (a p c : String) (o : WaveformOracle) :
    generateWaveformImage a p c o = WaveformResult.ok p ↔ wfAllOk o = true := by
  unfold generateWaveformImage wfAllOk
  cases hpr : o.probe with
  | none => split_ifs <;> simp_all
  | some d => split_ifs <;> simp_all

theorem generateWaveformImage_sentinel {a p c : String} {o : WaveformOracle}
    (h : wfAllOk o = false) : generateWaveformImage a p c o = WaveformResult.sentinel := by
  rcases generateWaveformImage_shape a p c o with hok | hs
  · rw [(generateWaveformImage_ok_iff a p c o).mp hok] at h
    exact absurd h (by simp)
  · exact hs

/-! ## Non-emptiness of emitted fragments -/

theorem audioPlayerHtml_ne_empty (s : String) : audioPlayerHtml s ≠ "" := by
  intro h
  have hl := congrArg String.length h
  simp only [audioPlayerHtml, String.length_append,
    show String.length "" = 0 from rfl] at hl
  have hpos : 0 < String.length "<div class=\"audio-player\"><audio controls preload=\"metadata\"><source src=\"" := by
    decide
  omega

theorem enclosureHtml_ne_empty (s : String) :
    "<enclosure url=\"" ++ SITE_URL ++ s ++ "\" type=\"audio/mpeg\" />" ≠ "" := by
  intro h
  have hl := congrArg String.length h
  simp only [String.length_append, show String.length "" = 0 from rfl] at hl
  have hpos : 0 < String.length "<enclosure url=\"" := by decide
  omega

theorem itunesHtml_ne_empty :
    "<itunes:duration></itunes:duration><itunes:author>" ++ SITE_AUTHOR
      ++ "</itunes:author>" ≠ "" := by
  intro h
  have hl := congrArg String.length h
  simp only [String.length_append, show String.length "" = 0 from rfl] at hl
  have hpos : 0 < String.length "<itunes:duration></itunes:duration><itunes:author>" := by
    decide
  omega

/-! ## Claim C3 — video generation is idempotent on an up-to-date output -/

/-- C3: when the output video exists and its mtime is strictly newer than the
audio file's mtime, `generateVideoFromAudio` skips regeneration entirely: the
encoder is not invoked and the output's mtime is unchanged. -/
theorem C3_video_idempotent (audioPath outputVideoPath coverImage : String)
    (o : VideoOracle) (a v : Int)
    (ha : o.audioMtime = some a) (hv : o.videoMtime = some v) (hgt : v > a) :
    (generateVideoFromAudio audioPath outputVideoPath coverImage o).encoderInvoked = false
      ∧ (generateVideoFromAudio audioPath outputVideoPath coverImage o).videoMtimeAfter
          = o.videoMtime := by
  unfold generateVideoFromAudio
  by_cases hff : o.ffmpegOk = true
  · simp [hff, ha, hv, hgt]
  · simp [hff]

def oC3 : VideoOracle :=
  { ffmpegOk := true, audioMtime := some 10, videoMtime := some 20,
    mkdirOk := true, encodeOk := true, now := 100 }

/-- Witness for C3 at a concrete oracle (audio mtime 10, video mtime 20). -/
theorem C3_video_idempotent_witness :
    (generateVideoFromAudio "docs/a.mp3" "docs/a.mp4" "./audio-cover.jpg" oC3).encoderInvoked
        = false
      ∧ (generateVideoFromAudio "docs/a.mp3" "docs/a.mp4" "./audio-cover.jpg" oC3).videoMtimeAfter
          = oC3.videoMtime :=
  C3_video_idempotent "docs/a.mp3" "docs/a.mp4" "./audio-cover.jpg" oC3 10 20 rfl rfl
    (by decide)

/-! ## Claim C1 — videoSource is set even when video generation failed -/

def fC1 : SourceFile :=
  { name := "song.md", title := some "Song", dateMs := some 1000, description := none,
    tags := some ["music"], musicSource := some "a.mp3", coverImage := none,
    rendered := "<p>hi</p>" }

/-- Every waveform step fails. -/
def wEnvFail : String → WaveformOracle :=
  fun _ => { mkdirOk := true, probe := none, extractOk := false, waveformOk := false,
             compositeOk := false, unlinkWaveformOk := false, unlinkAudioOk := false }

/-- The encoder binary is unavailable: video generation does nothing. -/
def vEnvFail : String → VideoOracle :=
  fun _ => { ffmpegOk := false, audioMtime := some 0, videoMtime := none,
             mkdirOk := true, encodeOk := false, now := 5 }

/-- C1 (code bug): for an eligible entry whose video generation fails (here:
encoder unavailable, so no output file exists afterwards and the encoder was
never invoked), the media loop still sets `entry.videoSource` from the
filename pattern — the field is not left unset as the claim and the spec's
normative sentence require. -/
theorem C1_videoSource_set_despite_failure :
    (generateVideoFromAudio (pathJoinModel OUTPUT_DIR "a.mp3")
        (replaceAudioExt (pathJoinModel OUTPUT_DIR "a.mp3") ".mp4")
        AUDIO_COVER_IMAGE (vEnvFail (pathJoinModel OUTPUT_DIR "a.mp3"))).encoderInvoked = false
      ∧ (generateVideoFromAudio (pathJoinModel OUTPUT_DIR "a.mp3")
          (replaceAudioExt (pathJoinModel OUTPUT_DIR "a.mp3") ".mp4")
          AUDIO_COVER_IMAGE (vEnvFail (pathJoinModel OUTPUT_DIR "a.mp3"))).videoMtimeAfter
            = none
      ∧ (processEntry wEnvFail vEnvFail (parseEntry fC1)).videoSource = some (some "a.mp4")
      ∧ (processEntry wEnvFail vEnvFail (parseEntry fC1)).waveformImage = some none := by
  refine ⟨rfl, rfl, ?_, ?_⟩ <;> decide

/-! ## Claim C8 — waveform generation degrades to a sentinel, never aborts -/

/-- C8: `generateWaveformImage` returns the output path when every step
succeeds and the `false` sentinel when any step (probe, extraction, waveform
render, composite, cleanup) fails; the media loop records the sentinel as
`waveformImage: null` for the entry, and a run over valid-dated posts
completes all output-writing steps regardless of waveform failures. -/
theorem C8_waveform_sentinel (audioPath outputImagePath coverImage : String)
    (o : WaveformOracle) (i : SiteInput) :
    (wfAllOk o = true →
        generateWaveformImage audioPath outputImagePath coverImage o
          = WaveformResult.ok outputImagePath)
      ∧ (wfAllOk o = false →
          generateWaveformImage audioPath outputImagePath coverImage o
            = WaveformResult.sentinel)
      ∧ (∀ e : Entry, mediaEligible e = true →
          wfAllOk (i.wEnv (pathJoinModel OUTPUT_DIR (e.musicSource.getD ""))) = false →
          (processEntry i.wEnv i.vEnv e).waveformImage = some none)
      ∧ ((∀ e ∈ sortedOf i, e.dateMs.isSome = true) → (generateSite i).isOk = true) := by
  refine ⟨?_, ?_, ?_, ?_⟩
  · intro h
    exact (generateWaveformImage_ok_iff audioPath outputImagePath coverImage o).mpr h
  · intro h
    exact generateWaveformImage_sentinel h
  · intro e helig hwf
    unfold processEntry
    rw [if_pos helig]
    simp only [generateWaveformImage_sentinel hwf, wfTruthy, Bool.false_eq_true, if_false]
  · exact generateSite_isOk_of_valid

def oWfGood : WaveformOracle :=
  { mkdirOk := true, probe := some "800x600", extractOk := true, waveformOk := true,
    compositeOk := true, unlinkWaveformOk := true, unlinkAudioOk := true }

def eC8 : Entry :=
  { title := some "Song", dateMs := some 1000, description := none, tags := ["music"],
    slug := "song", filename := "song.md", musicSource := some "a.mp3",
    coverImage := none, content := "<p>hi</p>" }

def iC8 : SiteInput :=
  { files := [fC1], template := "T<!-- PORTFOLIO_ITEMS -->|<!-- TAG_FILTERS -->",
    postTemplate := "P<!-- BLOG_ITEM -->|<!-- BLOG_TITLE -->|<!-- OG_TAGS -->",
    wEnv := wEnvFail, vEnv := vEnvFail, now := "now" }

/-- Witness for C8: a fully-successful oracle yields the path, a failing one
yields the sentinel, the failing pipeline records null and the run succeeds. -/
theorem C8_waveform_sentinel_witness :
    generateWaveformImage "docs/a.mp3" "docs/a-waveform.jpg" "./audio-cover.jpg" oWfGood
        = WaveformResult.ok "docs/a-waveform.jpg"
      ∧ generateWaveformImage "docs/a.mp3" "docs/a-waveform.jpg" "./audio-cover.jpg"
          (wEnvFail "docs/a.mp3") = WaveformResult.sentinel
      ∧ (processEntry iC8.wEnv iC8.vEnv eC8).waveformImage = some none
      ∧ (generateSite iC8).isOk = true :=
  ⟨(C8_waveform_sentinel "docs/a.mp3" "docs/a-waveform.jpg" "./audio-cover.jpg" oWfGood
      iC8).1 (by decide),
   (C8_waveform_sentinel "docs/a.mp3" "docs/a-waveform.jpg" "./audio-cover.jpg"
      (wEnvFail "docs/a.mp3") iC8).2.1 (by decide),
   (C8_waveform_sentinel "docs/a.mp3" "docs/a-waveform.jpg" "./audio-cover.jpg" oWfGood
      iC8).2.2.1 eC8 (by decide) (by decide),
   (C8_waveform_sentinel "docs/a.mp3" "docs/a-waveform.jpg" "./audio-cover.jpg" oWfGood
      iC8).2.2.2 (by decide)⟩

/-- The output of a run known to have succeeded. -/
def runOut (i : SiteInput) : SiteOutput :=
  match generateSite i with
  | .ok o => o
  | .error _ => default

theorem generateSite_ok_of_isOk {i : SiteInput} (h : (generateSite i).isOk = true) :
    generateSite i = .ok (runOut i) := by
  unfold runOut
  cases hg : generateSite i with
  | error err => rw [hg] at h; exact absurd h (by simp [Except.isOk, Except.toBool])
  | ok o => rfl

/-! ## Claim C10 — the audio player and feed enclosure gate on musicSource only -/

/-- A music-sourced entry that is not tagged music: truthy player gate, false
derived-media gate. -/
def eC10gap : Entry :=
  { title := none, dateMs := some 0, description := none, tags := [],
    slug := "s", filename := "s.md", musicSource := some "a.mp3", coverImage := none,
    content := "" }

/-- C10: the audio-player fragment (used verbatim by both the home-page card
and the per-post card) and the feed's enclosure and iTunes item fragments are
emitted iff `entry.musicSource` is truthy, independently of the tags — a
strictly weaker gate than `mediaEligible` (tags contain music AND musicSource),
as the final two conjuncts show. -/
theorem C10_music_gate :
    (∀ e : Entry, generateAudioPlayer e = "" ↔ musicTruthy e = false)
      ∧ (∀ e : Entry, (mkRssItem e).enclosure = "" ↔ musicTruthy e = false)
      ∧ (∀ e : Entry, (mkRssItem e).itunes = "" ↔ musicTruthy e = false)
      ∧ (∀ e : Entry, renderHomeCard e = homeCardHead e ++ generateAudioPlayer e
          ++ cardContentTail e)
      ∧ (∀ e : Entry, renderPostCard e = postCardHead e ++ generateAudioPlayer e
          ++ cardContentTail e)
      ∧ (∀ e : Entry, mediaEligible e = true → musicTruthy e = true)
      ∧ (∃ e : Entry, musicTruthy e = true ∧ mediaEligible e = false) := by
  refine ⟨?_, ?_, ?_, fun e => rfl, fun e => rfl, ?_, ?_⟩
  · intro e
    unfold generateAudioPlayer musicTruthy
    cases hms : e.musicSource with
    | none => simp
    | some s =>
      by_cases hs : s = ""
      · simp [hs]
      · simp [hs, audioPlayerHtml_ne_empty s]
  · intro e
    simp only [mkRssItem]
    unfold musicTruthy
    cases hms : e.musicSource with
    | none => simp
    | some s =>
      by_cases hs : s = ""
      · simp [hs]
      · simp [hs, enclosureHtml_ne_empty s]
  · intro e
    simp only [mkRssItem]
    unfold musicTruthy
    cases hms : e.musicSource with
    | none => simp
    | some s =>
      by_cases hs : s = ""
      · simp [hs]
      · simp [hs, itunesHtml_ne_empty]
  · intro e h
    unfold mediaEligible at h
    simp only [Bool.and_eq_true] at h
    exact h.1
  · exact ⟨eC10gap, by decide, by decide⟩

/-- Witness for C10 at a concrete music-sourced entry. -/
theorem C10_music_gate_witness :
    (generateAudioPlayer eC8 = "" ↔ musicTruthy eC8 = false)
      ∧ ((mkRssItem eC8).enclosure = "" ↔ musicTruthy eC8 = false)
      ∧ ((mkRssItem eC8).itunes = "" ↔ musicTruthy eC8 = false)
      ∧ musicTruthy eC8 = true :=
  ⟨C10_music_gate.1 eC8, C10_music_gate.2.1 eC8, C10_music_gate.2.2.1 eC8,
   C10_music_gate.2.2.2.2.2.1 eC8 (by decide)⟩

/-! ## Claim C2 — ordering of the rendered lists and the feed -/

theorem not_dateGt_of_ge {a b : Entry} (h : dateGeB a b = true) : dateGtB b a = false := by
  unfold dateGeB at h
  unfold dateGtB
  cases hha : a.dateMs with
  | none => rw [hha] at h; simp at h
  | some x =>
    cases hhb : b.dateMs with
    | none => rw [hha, hhb] at h
    | some y =>
      rw [hha, hhb] at h
      simp only [decide_eq_true_eq] at h
      simp only [decide_eq_false_iff_not]
      omega

/-- The claim's ordering property, as stated, read over pairs of distinct
entries (two positions of the rendered list): the earlier position comes
strictly first iff its date is greater-or-equal.  The degenerate equal
position is excluded — the claim speaks of two entries A and B. -/
abbrev C2claimHolds (l : List Entry) : Prop :=
  ∀ a, a < l.length → ∀ b, b < l.length → a ≠ b →
    (a < b ↔ dateGeB (l.getD a default) (l.getD b default) = true)

def fTieA : SourceFile :=
  { name := "a.md", title := some "A", dateMs := some 500, description := none,
    tags := none, musicSource := none, coverImage := none, rendered := "x" }

def fTieB : SourceFile :=
  { name := "b.md", title := some "B", dateMs := some 500, description := none,
    tags := none, musicSource := none, coverImage := none, rendered := "y" }

def iC2tie : SiteInput :=
  { files := [fTieA, fTieB], template := "T<!-- PORTFOLIO_ITEMS -->|<!-- TAG_FILTERS -->",
    postTemplate := "P<!-- BLOG_ITEM -->|<!-- BLOG_TITLE -->|<!-- OG_TAGS -->",
    wEnv := wEnvFail, vEnv := vEnvFail, now := "now" }

def fNew : SourceFile :=
  { name := "new.md", title := some "New", dateMs := some 2000, description := none,
    tags := none, musicSource := none, coverImage := none, rendered := "n" }

def fOld : SourceFile :=
  { name := "old.md", title := some "Old", dateMs := some 1000, description := none,
    tags := none, musicSource := none, coverImage := none, rendered := "o" }

def iC2w : SiteInput :=
  { files := [fOld, fNew], template := "T<!-- PORTFOLIO_ITEMS -->|<!-- TAG_FILTERS -->",
    postTemplate := "P<!-- BLOG_ITEM -->|<!-- BLOG_TITLE -->|<!-- OG_TAGS -->",
    wEnv := wEnvFail, vEnv := vEnvFail, now := "now" }

/-- C2, counterexample: the stated biconditional does hold for a run over two
posts with distinct dates (first conjunct — so the property is not vacuously
refutable), but fails for a run over two posts with equal dates: the stable
sort keeps their directory order, and for the pair taken in the other
direction the date comparison is still ≥ while the position comparison is
not, refuting the only-if direction exactly at the tie. -/
theorem C2_tie_counterexample :
    C2claimHolds (runOut iC2w).sortedEntries
      ∧ (generateSite iC2tie).isOk = true
      ∧ ¬ C2claimHolds (runOut iC2tie).sortedEntries := by
  refine ⟨by decide, by decide, by decide⟩

/-- Inserting an entry below the strictly-newer prefix never reorders the
entries that carry any one fixed date: the strictly-newer entries it passes
over cannot carry the inserted entry's own date. -/
theorem insertDesc_filter_key (e : Entry) (d : Int) :
    ∀ l : List Entry,
      (insertDesc e l).filter (fun x => x.dateMs == some d)
        = ((e :: l).filter (fun x => x.dateMs == some d)) := by
  intro l
  induction l with
  | nil => rfl
  | cons x xs ih =>
    simp only [insertDesc]
    by_cases hcmp : dateGtB x e = true
    · rw [if_pos hcmp]
      have hne : ¬ (x.dateMs = some d ∧ e.dateMs = some d) := by
        rintro ⟨hx, he⟩
        unfold dateGtB at hcmp
        rw [hx, he] at hcmp
        simp only [decide_eq_true_eq] at hcmp
        omega
      by_cases hx : x.dateMs = some d
      · have he' : ¬ e.dateMs = some d := fun he => hne ⟨hx, he⟩
        simp [List.filter_cons, hx, he', ih]
      · by_cases he : e.dateMs = some d
        · simp [List.filter_cons, hx, he, ih]
        · simp [List.filter_cons, hx, he, ih]
    · rw [if_neg hcmp]

/-- Stability of the date sort: for every date value, the subsequence of
entries carrying that date is exactly the pre-sort subsequence. -/
theorem sortDesc_filter_key (l : List Entry) (d : Int) :
    (sortDesc l).filter (fun x => x.dateMs == some d)
      = l.filter (fun x => x.dateMs == some d) := by
  induction l with
  | nil => rfl
  | cons x xs ih =>
    simp only [sortDesc]
    rw [insertDesc_filter_key]
    by_cases hx : x.dateMs = some d
    · simp [List.filter_cons, hx, ih]
    · simp [List.filter_cons, hx, ih]

/-- C2 amended: every rendered list is descending by date — an earlier
position has date ≥ a later one, and strictly greater date forces the earlier
position; entries sharing one date keep their pre-sort (directory) order, the
sort being stable; the home cards, the per-post rendering order and the feed
items are index-aligned maps of that one order, and the feed keeps the first
min(20, n) entries. -/
theorem C2_sorted_amended (i : SiteInput) (hok : (generateSite i).isOk = true) :
    (∀ a b, a < b → b < (runOut i).sortedEntries.length →
        dateGeB ((runOut i).sortedEntries.getD a default)
          ((runOut i).sortedEntries.getD b default) = true)
      ∧ (∀ a b, a < (runOut i).sortedEntries.length → b < (runOut i).sortedEntries.length →
          dateGtB ((runOut i).sortedEntries.getD a default)
            ((runOut i).sortedEntries.getD b default) = true → a < b)
      ∧ (runOut i).homeCards = (runOut i).sortedEntries.map renderHomeCard
      ∧ (runOut i).postPages = (runOut i).sortedEntries.map (writePost i.postTemplate)
      ∧ (runOut i).rssItems = ((runOut i).sortedEntries.take 20).map mkRssItem
      ∧ (runOut i).rssItems.length = min 20 (runOut i).sortedEntries.length
      ∧ (∀ d : Int, (runOut i).sortedEntries.filter (fun e => e.dateMs == some d)
          = (entriesOf i).filter (fun e => e.dateMs == some d)) := by
  have hrun := generateSite_ok_of_isOk hok
  obtain ⟨hman, hsorted, hhome, hpost, hrss⟩ := generateSite_ok_inv hrun
  have hv : ∀ e ∈ entriesOf i, e.dateMs.isSome = true := by
    intro e he
    exact mapExcept_ok_valid hman e ((sortDesc_perm (entriesOf i)).mem_iff.mpr he)
  refine ⟨?_, ?_, ?_, ?_, ?_, ?_, ?_⟩
  · intro a b hab hb
    rw [hsorted] at hb ⊢
    exact sortDesc_getD_ge hv hab hb
  · intro a b ha hb hgt
    rw [hsorted] at ha hb hgt
    by_contra hnab
    rcases Nat.lt_or_ge b a with hba | hba
    · have hge : dateGeB ((sortedOf i).getD b default) ((sortedOf i).getD a default) = true :=
        sortDesc_getD_ge hv hba ha
      rw [not_dateGt_of_ge hge] at hgt
      exact absurd hgt (by simp)
    · have hba' : a = b := Nat.le_antisymm hba (Nat.not_lt.mp hnab)
      subst hba'
      rw [dateGt_irrefl] at hgt
      exact absurd hgt (by simp)
  · rw [hhome, hsorted]
  · rw [hpost, hsorted]
  · rw [hrss, hsorted]
  · rw [hrss, hsorted, List.length_map, List.length_take]
  · intro d
    rw [hsorted]
    unfold sortedOf
    exact sortDesc_filter_key (entriesOf i) d

/-- Witness for the amended C2 at a concrete two-post input with distinct
dates, including the stability conjunct at the concrete date 2000. -/
theorem C2_sorted_amended_witness :
    (∀ a b, a < b → b < (runOut iC2w).sortedEntries.length →
        dateGeB ((runOut iC2w).sortedEntries.getD a default)
          ((runOut iC2w).sortedEntries.getD b default) = true)
      ∧ (runOut iC2w).homeCards = (runOut iC2w).sortedEntries.map renderHomeCard
      ∧ (runOut iC2w).rssItems = ((runOut iC2w).sortedEntries.take 20).map mkRssItem
      ∧ (runOut iC2w).rssItems.length = min 20 (runOut iC2w).sortedEntries.length
      ∧ (runOut iC2w).sortedEntries.filter (fun e => e.dateMs == some 2000)
          = (entriesOf iC2w).filter (fun e => e.dateMs == some 2000) :=
  ⟨(C2_sorted_amended iC2w (by decide)).1,
   (C2_sorted_amended iC2w (by decide)).2.2.1,
   (C2_sorted_amended iC2w (by decide)).2.2.2.2.1,
   (C2_sorted_amended iC2w (by decide)).2.2.2.2.2.1,
   (C2_sorted_amended iC2w (by decide)).2.2.2.2.2.2 2000⟩

/-! ## Claim C6 — manifest count and slugs -/

/-- C6: whenever a run succeeds, the manifest holds exactly one record per
markdown source file and its slugs are (as a multiset) exactly the filename
stems. -/
theorem C6_manifest_slugs (i : SiteInput) (hok : (generateSite i).isOk = true) :
    (runOut i).manifest.length = (mdFilesOf i).length
      ∧ List.Perm ((runOut i).manifest.map (·.slug))
          ((mdFilesOf i).map (fun f => mdStem f.name)) := by
  have hrun := generateSite_ok_of_isOk hok
  obtain ⟨hman, _, _, _, _⟩ := generateSite_ok_inv hrun
  constructor
  · rw [mapExcept_ok_length hman]
    unfold sortedOf
    rw [(sortDesc_perm (entriesOf i)).length_eq]
    unfold entriesOf
    rw [List.length_map]
  · rw [mapExcept_ok_slugs hman]
    have hperm : List.Perm ((sortedOf i).map (·.slug)) ((entriesOf i).map (·.slug)) :=
      (sortDesc_perm (entriesOf i)).map (·.slug)
    rw [entriesOf_slugs i] at hperm
    exact hperm

def fNoteTxt : SourceFile :=
  { name := "notes.txt", title := some "Notes", dateMs := some 1, description := none,
    tags := none, musicSource := none, coverImage := none, rendered := "t" }

def iC6 : SiteInput :=
  { files := [fOld, fNoteTxt, fNew],
    template := "T<!-- PORTFOLIO_ITEMS -->|<!-- TAG_FILTERS -->",
    postTemplate := "P<!-- BLOG_ITEM -->|<!-- BLOG_TITLE -->|<!-- OG_TAGS -->",
    wEnv := wEnvFail, vEnv := vEnvFail, now := "now" }

/-- Witness for C6: two markdown posts and one non-markdown file. -/
theorem C6_manifest_slugs_witness :
    (runOut iC6).manifest.length = (mdFilesOf iC6).length
      ∧ List.Perm ((runOut iC6).manifest.map (·.slug))
          ((mdFilesOf iC6).map (fun f => mdStem f.name)) :=
  C6_manifest_slugs iC6 (by decide)

/-! ## Claim C9 — an unparseable date aborts the run at serialisation -/

def fBadDate : SourceFile :=
  { name := "bad.md", title := some "Bad", dateMs := none, description := none,
    tags := none, musicSource := none, coverImage := none, rendered := "b" }

def iC9 : SiteInput :=
  { files := [fNew, fBadDate],
    template := "T<!-- PORTFOLIO_ITEMS -->|<!-- TAG_FILTERS -->",
    postTemplate := "P<!-- BLOG_ITEM -->|<!-- BLOG_TITLE -->|<!-- OG_TAGS -->",
    wEnv := wEnvFail, vEnv := vEnvFail, now := "now" }

/-- C9, counterexample: with one unparseable date the whole run rejects with
the `toISOString` error — no output-writing step completes, contradicting the
claim that the build still completes with the sentinel date. -/
theorem C9_invalid_date_aborts :
    generateSite iC9 = .error "Invalid time value" := rfl

/-- C9 amended: an unparseable date parses to the Invalid-Date sentinel and
the date sort still completes (it permutes the list, with the host treating
the NaN comparison as no-reorder), but serialising such a date for the
manifest throws, so the run aborts before any output file is written. -/
theorem C9_invalid_date_amended (i : SiteInput)
    (h : ∃ e ∈ entriesOf i, e.dateMs = none) :
    generateSite i = .error "Invalid time value"
      ∧ (sortDesc (entriesOf i)).length = (entriesOf i).length := by
  constructor
  · have herr : mapExcept mkManifestRecord (sortedOf i) = .error "Invalid time value" := by
      apply mapExcept_error_of_invalid
      obtain ⟨e, he, hd⟩ := h
      exact ⟨e, (sortDesc_perm (entriesOf i)).mem_iff.mpr he, hd⟩
    unfold generateSite
    rw [herr]
  · exact (sortDesc_perm (entriesOf i)).length_eq

/-- Witness for the amended C9 at the concrete two-post input. -/
theorem C9_invalid_date_amended_witness :
    generateSite iC9 = .error "Invalid time value"
      ∧ (sortDesc (entriesOf iC9)).length = (entriesOf iC9).length :=
  C9_invalid_date_amended iC9 (by decide)

/-! ## Claim C5 — the feed description fallback -/

/-- The description the claim's sentence describes: tags stripped from the
whole rendered content first, then the first 200 characters of that stripped
text, then the ellipsis marker. -/
def specStripThenSlice (content : String) : String :=
  String.mk ((stripTags content.toList).take 200) ++ "..."

/-- A description-less entry whose rendered content opens with a tag and then
exceeds 200 characters. -/
def eC5 : Entry :=
  { title := some "T", dateMs := some 7, description := none, tags := [],
    slug := "t", filename := "t.md", musicSource := none, coverImage := none,
    content := String.mk ('<' :: 'p' :: '>' :: List.replicate 200 'a') }

set_option maxRecDepth 8192 in
/-- C5, counterexample: the code slices the raw HTML to 200 characters and
only then strips tags, so the feed description drops the three characters the
tag occupied inside the slice; it differs from stripping first and slicing
the stripped text to 200 characters as the claim reads. -/
theorem C5_truncation_order_counterexample :
    (mkRssItem eC5).description = rssDescription eC5
      ∧ rssDescription eC5 ≠ specStripThenSlice eC5.content := by
  constructor
  · rfl
  · decide

/-- C5 amended: for a description-less entry, the feed description is the
first 200 characters of the rendered HTML with tags then stripped from that
prefix, followed by the ellipsis marker (truncation precedes tag stripping);
the feed items of a successful run are built by that rule. -/
theorem C5_rss_description_amended (i : SiteInput) (hok : (generateSite i).isOk = true) :
    (runOut i).rssItems = ((runOut i).sortedEntries.take 20).map mkRssItem
      ∧ ∀ e : Entry, e.description = none →
          (mkRssItem e).description
            = String.mk (stripTags (e.content.toList.take 200)) ++ "..." := by
  have hrun := generateSite_ok_of_isOk hok
  obtain ⟨_, hsorted, _, _, hrss⟩ := generateSite_ok_inv hrun
  constructor
  · rw [hrss, hsorted]
  · intro e hd
    show rssDescription e = _
    unfold rssDescription jsOr truncStrip
    rw [hd]

/-- Witness for the amended C5: a successful run plus the fallback shape at a
concrete description-less entry. -/
theorem C5_rss_description_amended_witness :
    (runOut iC2w).rssItems = ((runOut iC2w).sortedEntries.take 20).map mkRssItem
      ∧ (mkRssItem eC5).description
          = String.mk (stripTags (eC5.content.toList.take 200)) ++ "..." :=
  ⟨(C5_rss_description_amended iC2w (by decide)).1,
   (C5_rss_description_amended iC2w (by decide)).2 eC5 rfl⟩

/-! ## Claim C7 — manifest record keys after JSON serialisation -/

def allEightKeys : List String :=
  ["title", "date", "tags", "slug", "description", "musicSource", "videoSource",
   "waveformImage"]

def baseSixKeys : List String :=
  ["title", "date", "tags", "slug", "description", "musicSource"]

/-- The derived-media gate read off a manifest record. -/
def mediaEligibleR (r : ManifestRecord) : Bool :=
  r.musicSource.isSome && r.tags.contains "music"

def fC7 : SourceFile :=
  { name := "plain.md", title := some "Plain", dateMs := some 1, description := none,
    tags := some ["life"], musicSource := none, coverImage := none,
    rendered := "<p>x</p>" }

def iC7 : SiteInput :=
  { files := [fC7],
    template := "T<!-- PORTFOLIO_ITEMS -->|<!-- TAG_FILTERS -->",
    postTemplate := "P<!-- BLOG_ITEM -->|<!-- BLOG_TITLE -->|<!-- OG_TAGS -->",
    wEnv := wEnvFail, vEnv := vEnvFail, now := "now" }

/-- C7, counterexample: a successful run over one non-audio post yields a
manifest record whose serialised keys omit videoSource and waveformImage
(their values are JavaScript undefined, which JSON.stringify drops), so the
record does not contain all eight fields. -/
theorem C7_keys_omitted_counterexample :
    (generateSite iC7).isOk = true
      ∧ (runOut iC7).manifest.map recordKeys = [baseSixKeys]
      ∧ ∀ r ∈ (runOut iC7).manifest,
          "videoSource" ∉ recordKeys r ∧ "waveformImage" ∉ recordKeys r := by
  refine ⟨by decide, by decide, by decide⟩

/-- C7 amended: every record of a successful run (over titled posts) carries
title, date, tags, slug, description and musicSource; the two derived-media
keys are present exactly for the audio posts (music tag plus musicSource),
and are omitted from the JSON for every other entry because their values are
JavaScript undefined. -/
theorem C7_record_keys_amended (i : SiteInput) (hok : (generateSite i).isOk = true)
    (htitle : ∀ f ∈ mdFilesOf i, f.title.isSome = true) :
    ∀ r ∈ (runOut i).manifest,
      (mediaEligibleR r = true → recordKeys r = allEightKeys)
        ∧ (mediaEligibleR r = false → recordKeys r = baseSixKeys) := by
  have hrun := generateSite_ok_of_isOk hok
  obtain ⟨hman, _, _, _, _⟩ := generateSite_ok_inv hrun
  intro r hr
  obtain ⟨e, heSorted, hmk⟩ := mapExcept_ok_mem hman r hr
  have heEntries : e ∈ entriesOf i := (sortDesc_perm (entriesOf i)).mem_iff.mp heSorted
  obtain ⟨hslug, htags, hms, hvid, hwf, htitleR⟩ := mkManifestRecord_ok_fields hmk
  obtain ⟨f, hf, hef⟩ := entriesOf_mem heEntries
  have hti : e.title.isSome = true := by
    rw [hef, (processEntry_fields i.wEnv i.vEnv (parseEntry f)).2.2.2.2.2.2]
    exact htitle f hf
  have hmsne : e.musicSource ≠ some "" := entriesOf_musicSource_ne_empty heEntries
  have heq : mediaEligibleR r = mediaEligible e := by
    unfold mediaEligibleR mediaEligible
    rw [hms, htags, musicTruthy_eq_isSome hmsne]
  obtain ⟨t, ht⟩ := Option.isSome_iff_exists.mp hti
  have htR : r.title = some t := by rw [htitleR, ht]
  have hmedia := entriesOf_media heEntries
  constructor
  · intro helig
    rw [heq] at helig
    obtain ⟨hv, hw⟩ := hmedia.1 helig
    unfold recordKeys
    rcases hw with hw | hw
    · rw [htR, hvid, hv, hwf, hw]; rfl
    · rw [htR, hvid, hv, hwf, hw]; rfl
  · intro helig
    rw [heq] at helig
    obtain ⟨hv, hw⟩ := hmedia.2 helig
    unfold recordKeys
    rw [htR, hvid, hv, hwf, hw]; rfl

def iC7w : SiteInput :=
  { files := [fC1, fC7],
    template := "T<!-- PORTFOLIO_ITEMS -->|<!-- TAG_FILTERS -->",
    postTemplate := "P<!-- BLOG_ITEM -->|<!-- BLOG_TITLE -->|<!-- OG_TAGS -->",
    wEnv := wEnvFail, vEnv := vEnvFail, now := "now" }

/-- Witness for the amended C7: in a run over one audio and one plain post,
the audio record carries all eight keys and the plain record only six. -/
theorem C7_record_keys_amended_witness :
    recordKeys ((runOut iC7w).manifest.getD 0 default) = allEightKeys
      ∧ recordKeys ((runOut iC7w).manifest.getD 1 default) = baseSixKeys :=
  ⟨(C7_record_keys_amended iC7w (by decide) (by decide)
      ((runOut iC7w).manifest.getD 0 default) (by decide)).1 (by decide),
   (C7_record_keys_amended iC7w (by decide) (by decide)
      ((runOut iC7w).manifest.getD 1 default) (by decide)).2 (by decide)⟩

/-! ## Claim C4 — Open-Graph type selection -/

theorem replaceAudioExt_ne_empty (s repl : String) (hs : s ≠ "") (hr : 0 < repl.length) :
    replaceAudioExt s repl ≠ "" := by
  simp only [replaceAudioExt]
  split_ifs with h
  · intro hcon
    have hl := congrArg String.length hcon
    simp only [String.length_append, show String.length "" = 0 from rfl] at hl
    omega
  · exact hs

/-- C4 amended: a pipeline entry whose tags contain music and whose
musicSource is present emits exactly one `og:type`, namely `video.other`,
together with `og:video`/`og:audio` URLs formed by prefixing the site URL to
the entry's relative video and audio paths — regardless of whether video
generation succeeded, because the loop sets `videoSource` unconditionally;
every other entry emits exactly `og:type article`. -/
theorem C4_og_amended (i : SiteInput) :
    ∀ e ∈ entriesOf i,
      (mediaEligible e = true →
          ogTypes e = [⟨"og:type", "video.other"⟩]
            ∧ ogVideos e = [⟨"og:video",
                SITE_URL ++ replaceAudioExt (e.musicSource.getD "") ".mp4"⟩]
            ∧ ogAudios e = [⟨"og:audio", SITE_URL ++ e.musicSource.getD ""⟩])
        ∧ (mediaEligible e = false → ogTypes e = [⟨"og:type", "article"⟩]) := by
  intro e he
  have hmedia := entriesOf_media he
  constructor
  · intro helig
    obtain ⟨hv, hw⟩ := hmedia.1 helig
    have hsplit : musicTruthy e = true ∧ e.tags.contains "music" = true := by
      have h' := helig
      unfold mediaEligible at h'
      simpa [Bool.and_eq_true] using h'
    have hmt := hsplit.1
    have hmem : "music" ∈ e.tags := by simpa using hsplit.2
    obtain ⟨ms, hm, hmsne⟩ : ∃ ms, e.musicSource = some ms ∧ ms ≠ "" := by
      unfold musicTruthy at hmt
      cases hmm : e.musicSource with
      | none => rw [hmm] at hmt; exact absurd hmt (by simp)
      | some s =>
        rw [hmm] at hmt
        simp only [ne_eq, decide_eq_true_eq] at hmt
        exact ⟨s, rfl, hmt⟩
    have hgd : e.musicSource.getD "" = ms := by rw [hm]; rfl
    have hvne : replaceAudioExt ms ".mp4" ≠ "" :=
      replaceAudioExt_ne_empty ms ".mp4" hmsne (by decide)
    have hwne : replaceAudioExt ms "-waveform.jpg" ≠ "" :=
      replaceAudioExt_ne_empty ms "-waveform.jpg" hmsne (by decide)
    rcases hw with hw | hw <;>
      refine ⟨?_, ?_, ?_⟩ <;>
        simp [ogTypes, ogVideos, ogAudios, generateOpenGraphTags, hmt, hmem, hv, hw,
          hvne, hwne, List.filter_append, jsShow, hm]
  · intro helig
    have hNot : ¬ ("music" ∈ e.tags ∧ musicTruthy e = true) := by
      rintro ⟨hmem, hmt⟩
      have hct : e.tags.contains "music" = true := by simpa using hmem
      unfold mediaEligible at helig
      rw [hmt, hct] at helig
      exact absurd helig (by simp)
    obtain ⟨hv, hw⟩ := hmedia.2 helig
    simp [ogTypes, generateOpenGraphTags, hNot, List.filter_append]

/-- C4, counterexample: an eligible entry whose video generation failed
(encoder unavailable: the output file does not exist afterwards) still emits
`og:type video.other` and not `article`, though the claim requires `article`
for entries without a successfully generated video. -/
theorem C4_failed_video_still_video_other :
    (generateVideoFromAudio (pathJoinModel OUTPUT_DIR "a.mp3")
        (replaceAudioExt (pathJoinModel OUTPUT_DIR "a.mp3") ".mp4") AUDIO_COVER_IMAGE
        (vEnvFail (pathJoinModel OUTPUT_DIR "a.mp3"))).videoMtimeAfter = none
      ∧ ogTypes (processEntry wEnvFail vEnvFail (parseEntry fC1))
          = [⟨"og:type", "video.other"⟩]
      ∧ ogTypes (processEntry wEnvFail vEnvFail (parseEntry fC1))
          ≠ [⟨"og:type", "article"⟩] := by
  refine ⟨rfl, by decide, by decide⟩

/-- Witness for the amended C4: one eligible and one plain pipeline entry. -/
theorem C4_og_amended_witness :
    ogTypes (processEntry iC8.wEnv iC8.vEnv (parseEntry fC1))
        = [⟨"og:type", "video.other"⟩]
      ∧ ogTypes (processEntry iC7.wEnv iC7.vEnv (parseEntry fC7))
          = [⟨"og:type", "article"⟩] :=
  ⟨((C4_og_amended iC8 (processEntry iC8.wEnv iC8.vEnv (parseEntry fC1)) (by decide)).1
      (by decide)).1,
   (C4_og_amended iC7 (processEntry iC7.wEnv iC7.vEnv (parseEntry fC7)) (by decide)).2
      (by decide)⟩
